import Mathlib

/-
Verification of the disaster-response ETL pipeline (data/process_data.py).

The script has three stages plus a thin entry point:
  load_data   : read two CSVs (messages, categories) and left-join them on id;
  clean_data  : split the packed category string, derive column names from row 0,
                decode each token to its last character as an integer, drop the
                categories and child_alone columns, drop rows with related == 2,
                and drop duplicate rows;
  save_data   : write the cleaned frame to SQLite via to_sql(filename, index=False).

Strings from the CSVs are embedded as Lean String; the character-level
operations of the script (str.split, x[-1]) are modelled over String.data
(List Char) so that everything reduces in the kernel.
-/

namespace ETL

/-- Python str.split(sep) for a single-character separator: always returns at
least one (possibly empty) piece; adjacent separators yield empty pieces. -/
def splitOnChar (sep : Char) : List Char → List (List Char)
  | [] => [[]]
  | c :: cs =>
    if c = sep then [] :: splitOnChar sep cs
    else (c :: (splitOnChar sep cs).headD []) :: (splitOnChar sep cs).tail

/-- A record of the messages CSV: an id plus its free-text content
(further metadata columns are abstracted into the one text field). -/
structure Message where
  id : Nat
  text : String
deriving DecidableEq, Repr

/-- A record of the categories CSV: an id plus the packed category string. -/
structure Category where
  id : Nat
  categories : String
deriving DecidableEq, Repr

/-- A row of the merged frame produced by load_data: message fields plus the
category string, which is missing (NaN) when the left join found no match. -/
structure MergedRow where
  id : Nat
  text : String
  categories : Option String
deriving DecidableEq, Repr

/-- load_data: messages.merge(categories, how = 'left', on = ['id']).
Every message row is kept; each match in categories produces one output row,
and a message with no match produces a single row with missing categories. -/
def load_data (messages : List Message) (categories : List Category) :
    List MergedRow :=
  match messages with
  | [] => []
  | m :: ms =>
    (if (categories.filter (fun c => c.id == m.id)).isEmpty then
       [{ id := m.id, text := m.text, categories := none }]
     else (categories.filter (fun c => c.id == m.id)).map (fun c =>
       { id := m.id, text := m.text, categories := some c.categories }))
    ++ load_data ms categories

/-- pd.to_numeric on the one-character string x[-1]: a decimal digit becomes
its value, anything else raises. -/
def charDigit (c : Char) : Option Nat :=
  if '0' ≤ c ∧ c ≤ '9' then some (c.toNat - '0'.toNat) else none

/-- The per-token decoding of clean_data: x[-1] (IndexError on an empty
token) followed by pd.to_numeric (ValueError on a non-digit). -/
def decodeToken (tok : List Char) : Except String Nat :=
  match tok.getLast? with
  | none => Except.error "IndexError"
  | some c =>
    match charDigit c with
    | some n => Except.ok n
    | none => Except.error "ValueError"

/-- Decode one merged row's category string into its token values.
A missing (NaN) categories field raises when x[-1] is applied to NaN; a row
whose token count differs from row 0's raises either at the column
assignment (too many tokens) or on the NaN fill (too few). -/
def decodeRow (colCount : Nat) (r : MergedRow) : Except String (List Nat) :=
  match r.categories with
  | none => Except.error "TypeError"
  | some s =>
    let toks := splitOnChar ';' s.data
    if toks.length = colCount then toks.mapM decodeToken
    else Except.error "ValueError"

/-- Decode every merged row, keeping each row next to its decoded values;
the first failing row aborts the whole clean, as in pandas. -/
def decodeRows (colCount : Nat) : List MergedRow →
    Except String (List (MergedRow × List Nat))
  | [] => Except.ok []
  | r :: rs =>
    match decodeRow colCount r with
    | Except.error e => Except.error e
    | Except.ok vals =>
      match decodeRows colCount rs with
      | Except.error e => Except.error e
      | Except.ok rest => Except.ok ((r, vals) :: rest)

/-- A row of the cleaned frame: the original non-label columns plus one
named integer label per kept category column. -/
structure CleanedRow where
  id : Nat
  text : String
  labels : List (List Char × Nat)
deriving DecidableEq, Repr

/-- Column names derived from row 0: each ';'-token's substring before its
FIRST '-' (x.split('-')[0]); IndexError on an empty frame, AttributeError
when row 0's categories is NaN. -/
def cleanColnames (df : List MergedRow) : Except String (List (List Char)) :=
  match df with
  | [] => Except.error "IndexError"
  | r :: _ =>
    match r.categories with
    | none => Except.error "AttributeError"
    | some s =>
      Except.ok ((splitOnChar ';' s.data).map
        (fun t => (splitOnChar '-' t).headD []))

/-- True for label columns that survive df.drop('categories') and
df.drop('child_alone'): both drops remove every column with that name. -/
def keepCol (n : List Char) : Bool :=
  !(n == "categories".data || n == "child_alone".data)

/-- Assemble one cleaned row from a merged row and its decoded values:
labels are the derived column names zipped with the values, minus the
dropped columns. -/
def buildRow (colnames : List (List Char)) (rv : MergedRow × List Nat) :
    CleanedRow :=
  { id := rv.1.id, text := rv.1.text,
    labels := (colnames.zip rv.2).filter (fun p => keepCol p.1) }

/-- The value of a cleaned row's related column, when present. -/
def relatedVal (r : CleanedRow) : Option Nat :=
  (r.labels.find? (fun p => p.1 == "related".data)).map Prod.snd

/-- The boolean mask df['related'] != 2 of one row. -/
def relatedNotTwo (r : CleanedRow) : Bool :=
  !(relatedVal r == some 2)

/-- df.drop_duplicates(): keep the first occurrence of each row, dropping
later exact duplicates. The seen accumulator holds the rows already kept. -/
def dedupFirst [DecidableEq α] (seen : List α) : List α → List α
  | [] => []
  | x :: xs =>
    if x ∈ seen then dedupFirst seen xs
    else x :: dedupFirst (x :: seen) xs

/-- df.drop_duplicates() on a whole frame. -/
def dropDuplicates [DecidableEq α] (l : List α) : List α :=
  dedupFirst [] l

/-- clean_data: split categories, name the columns from row 0, decode every
token's last character to an integer, drop the categories and child_alone
columns (KeyError when no child_alone column exists), keep rows with
related != 2 (KeyError when no related column remains; a frame with several
columns named related is modelled as a failure, since boolean indexing by a
DataFrame is not a meaningful row filter), then drop duplicate rows. The
result pairs the kept label column names with the cleaned rows. -/
def clean_data (df : List MergedRow) :
    Except String (List (List Char) × List CleanedRow) :=
  match cleanColnames df with
  | Except.error e => Except.error e
  | Except.ok colnames =>
    match decodeRows colnames.length df with
    | Except.error e => Except.error e
    | Except.ok decoded =>
      if "child_alone".data ∈ colnames then
        if (colnames.filter keepCol).count "related".data = 1 then
          Except.ok (colnames.filter keepCol,
            dropDuplicates ((decoded.map (buildRow colnames)).filter
              relatedNotTwo))
        else Except.error "KeyError"
      else Except.error "KeyError"

/-- A table of the SQLite store: its column names and its rows. -/
structure Table where
  cols : List (List Char)
  rows : List CleanedRow
deriving DecidableEq, Repr

/-- DataFrame.to_sql(name, engine, index): with the default
if_exists='fail' it raises ValueError when a table of that name already
exists, and otherwise appends one new table; index=True would prepend the
frame's index as an extra column. The frame's own columns are the fixed
non-label columns id and text plus the kept label columns. -/
def to_sql (name : String) (labelCols : List (List Char))
    (rows : List CleanedRow) (index : Bool)
    (db : List (String × Table)) : Except String (List (String × Table)) :=
  if name ∈ db.map Prod.fst then Except.error "ValueError"
  else
    Except.ok (db ++ [(name,
      { cols := (if index then ["index".data] else []) ++
          ["id".data, "text".data] ++ labelCols,
        rows := rows })])

/-- save_data: df.to_sql(database_filename, engine, index=False) — the table
name is the destination path string itself and no index column is written. -/
def save_data (labelCols : List (List Char)) (rows : List CleanedRow)
    (database_filename : String) (db : List (String × Table)) :
    Except String (List (String × Table)) :=
  to_sql database_filename labelCols rows false db

/-- The observable steps of main: printed lines and the three stages, in
program order. -/
inductive Action where
  | print (s : String)
  | load (messagesPath categoriesPath : String)
  | clean
  | save (databasePath : String)
deriving DecidableEq, Repr

/-- The usage text main prints when sys.argv does not have exactly 4
entries (program name plus 3 arguments). -/
def usageMessage : String :=
  "Please provide the filepaths of the messages and categories " ++
  "datasets as the first and second argument respectively, as " ++
  "well as the filepath of the database to save the cleaned data " ++
  "to as the third argument. \n\nExample: python process_data.py " ++
  "disaster_messages.csv disaster_categories.csv " ++
  "DisasterResponse.db"

/-- main: with exactly 3 positional arguments run
load_data, clean_data, save_data in order with progress prints; with any
other count print the usage message and do nothing else. -/
def mainActions (argv : List String) : List Action :=
  match argv with
  | [_, messagesPath, categoriesPath, databasePath] =>
    [Action.print ("Loading data...\n    MESSAGES: " ++ messagesPath ++
        "\n    CATEGORIES: " ++ categoriesPath),
     Action.load messagesPath categoriesPath,
     Action.print "Cleaning data...",
     Action.clean,
     Action.print ("Saving data...\n    DATABASE: " ++ databasePath),
     Action.save databasePath,
     Action.print "Cleaned data saved to database!"]
  | _ => [Action.print usageMessage]

/-- Join pieces back with '-' between them. -/
def joinDash : List (List Char) → List Char
  | [] => []
  | [t] => t
  | t :: ts => t ++ '-' :: joinDash ts

/-- Follows the spec's words, for comparison with cleanColnames: the column
name is the substring of the token before its LAST '-'-delimited segment. -/
def specColName (tok : List Char) : List Char :=
  joinDash ((splitOnChar '-' tok).dropLast)


theorem mem_dedupFirst [DecidableEq α] {seen : List α} {l : List α} {a : α}
    (h : a ∈ dedupFirst seen l) : a ∈ l := by
  induction l generalizing seen with
  | nil => simp [dedupFirst] at h
  | cons x xs ih =>
    simp only [dedupFirst] at h
    split at h
    · exact List.mem_cons_of_mem _ (ih h)
    · rcases List.mem_cons.mp h with h | h
      · exact h ▸ List.mem_cons_self _ _
      · exact List.mem_cons_of_mem _ (ih h)

theorem not_mem_dedupFirst_of_mem_seen [DecidableEq α] {seen : List α}
    {l : List α} {a : α} (ha : a ∈ seen) : a ∉ dedupFirst seen l := by
  induction l generalizing seen with
  | nil => simp [dedupFirst]
  | cons x xs ih =>
    simp only [dedupFirst]
    split
    · exact ih ha
    · intro h
      rcases List.mem_cons.mp h with h | h
      · subst h; exact absurd ha (by assumption)
      · exact ih (List.mem_cons_of_mem _ ha) h

theorem nodup_dedupFirst [DecidableEq α] (seen : List α) (l : List α) :
    (dedupFirst seen l).Nodup := by
  induction l generalizing seen with
  | nil => simp [dedupFirst]
  | cons x xs ih =>
    simp only [dedupFirst]
    split
    · exact ih seen
    · exact List.nodup_cons.mpr
        ⟨not_mem_dedupFirst_of_mem_seen (List.mem_cons_self _ _), ih (x :: seen)⟩

theorem dedupFirst_eq_self [DecidableEq α] {seen : List α} {l : List α}
    (hd : l.Nodup) (hs : ∀ a ∈ l, a ∉ seen) : dedupFirst seen l = l := by
  induction l generalizing seen with
  | nil => rfl
  | cons x xs ih =>
    simp only [dedupFirst]
    rw [if_neg (hs x (List.mem_cons_self _ _))]
    rcases List.nodup_cons.mp hd with ⟨hx, hxs⟩
    congr 1
    exact ih hxs (fun a ha => by
      intro hmem
      rcases List.mem_cons.mp hmem with h | h
      · exact hx (h ▸ ha)
      · exact hs a (List.mem_cons_of_mem _ ha) h)

theorem dropDuplicates_nodup [DecidableEq α] (l : List α) :
    (dropDuplicates l).Nodup := nodup_dedupFirst [] l

theorem dropDuplicates_idem [DecidableEq α] (l : List α) :
    dropDuplicates (dropDuplicates l) = dropDuplicates l :=
  dedupFirst_eq_self (dropDuplicates_nodup l) (by simp)

theorem mem_dropDuplicates [DecidableEq α] {l : List α} {a : α}
    (h : a ∈ dropDuplicates l) : a ∈ l := mem_dedupFirst h



theorem filter_id_length_le (cats : List Category) (i : Nat)
    (hc : (cats.map Category.id).Nodup) :
    (cats.filter (fun c => c.id == i)).length ≤ 1 := by
  induction cats with
  | nil => simp
  | cons c cs ih =>
    simp only [List.map_cons, List.nodup_cons] at hc
    by_cases h : c.id = i
    · rw [List.filter_cons_of_pos (by simp [h])]
      have hnil : cs.filter (fun x => x.id == i) = [] := by
        rw [List.filter_eq_nil_iff]
        intro x hx
        simp only [beq_iff_eq]
        intro hEq
        exact hc.1 (h ▸ hEq ▸ List.mem_map_of_mem Category.id hx)
      rw [hnil]
      simp
    · rw [List.filter_cons_of_neg (by simp [h])]
      exact ih hc.2

theorem load_data_map_id (msgs : List Message) (cats : List Category)
    (hc : (cats.map Category.id).Nodup) :
    (load_data msgs cats).map MergedRow.id = msgs.map Message.id := by
  induction msgs with
  | nil => rfl
  | cons m ms ih =>
    show ((if (cats.filter (fun c => c.id == m.id)).isEmpty then
        [({ id := m.id, text := m.text, categories := none } : MergedRow)]
      else (cats.filter (fun c => c.id == m.id)).map (fun c =>
        { id := m.id, text := m.text, categories := some c.categories }))
      ++ load_data ms cats).map MergedRow.id = _
    rw [List.map_append, ih, List.map_cons]
    have hle := filter_id_length_le cats m.id hc
    cases h : cats.filter (fun c => c.id == m.id) with
    | nil => simp [h]
    | cons c cs =>
      rw [h] at hle
      cases cs with
      | nil => simp [h]
      | cons c2 cs2 => simp at hle


theorem splitOnChar_ne_nil (sep : Char) (l : List Char) :
    splitOnChar sep l ≠ [] := by
  cases l with
  | nil => simp [splitOnChar]
  | cons c cs => by_cases h : c = sep <;> simp [splitOnChar, h]

theorem splitOnChar_append (sep : Char) (l r : List Char) :
    splitOnChar sep (l ++ sep :: r) =
      splitOnChar sep l ++ splitOnChar sep r := by
  induction l with
  | nil => simp [splitOnChar]
  | cons c cs ih =>
    by_cases h : c = sep
    · simp only [List.cons_append, splitOnChar, if_pos h, List.append_eq, ih]
    · simp only [List.cons_append, splitOnChar, if_neg h, List.append_eq, ih]
      cases hcs : splitOnChar sep cs with
      | nil => exact absurd hcs (splitOnChar_ne_nil sep cs)
      | cons t ts => simp [hcs]

theorem splitOnChar_of_not_mem (sep : Char) (l : List Char)
    (h : sep ∉ l) : splitOnChar sep l = [l] := by
  induction l with
  | nil => rfl
  | cons c cs ih =>
    simp only [List.mem_cons, not_or] at h
    have h1 : ¬c = sep := fun hc => h.1 hc.symm
    simp [splitOnChar, if_neg h1, ih h.2]

theorem load_data_unmatched (cats : List Category) (m : Message)
    (hno : ∀ c ∈ cats, c.id ≠ m.id) :
    ∀ msgs : List Message, m ∈ msgs →
      ({ id := m.id, text := m.text, categories := none } : MergedRow) ∈
        load_data msgs cats := by
  intro msgs
  induction msgs with
  | nil => intro h; simp at h
  | cons m0 ms ih =>
    intro hmem
    have hstep : load_data (m0 :: ms) cats =
      (if (cats.filter (fun c => c.id == m0.id)).isEmpty then
         [({ id := m0.id, text := m0.text, categories := none } : MergedRow)]
       else (cats.filter (fun c => c.id == m0.id)).map (fun c =>
         { id := m0.id, text := m0.text, categories := some c.categories }))
      ++ load_data ms cats := rfl
    rw [hstep]
    rcases List.mem_cons.mp hmem with h | h
    · subst h
      have hnil : cats.filter (fun c => c.id == m.id) = [] := by
        rw [List.filter_eq_nil_iff]
        intro c hc2
        simp [hno c hc2]
      simp [hnil]
    · exact List.mem_append_right _ (ih h)

/-- C1: for valid inputs (ids are unique identifiers within each CSV), every
id of the messages input appears exactly once among the ids of load_data's
output, and a message whose id matches no category record yields one row
with a missing categories field. -/
theorem load_data_left_join (msgs : List Message) (cats : List Category)
    (hm : (msgs.map Message.id).Nodup) (hc : (cats.map Category.id).Nodup) :
    (∀ i ∈ msgs.map Message.id,
      ((load_data msgs cats).map MergedRow.id).count i = 1) ∧
    (∀ m ∈ msgs, (∀ c ∈ cats, c.id ≠ m.id) →
      ({ id := m.id, text := m.text, categories := none } : MergedRow) ∈
        load_data msgs cats) := by
  constructor
  · intro i hi
    rw [load_data_map_id msgs cats hc]
    exact List.count_eq_one_of_mem hm hi
  · intro m hmem hno
    exact load_data_unmatched cats m hno msgs hmem

/-- C1 witness: a two-message input where id 2 has no category record. -/
theorem load_data_left_join_witness :
    ((load_data [{ id := 1, text := "a" }, { id := 2, text := "b" }]
        [{ id := 1, categories := "related-1;child_alone-0" }]).map
        MergedRow.id).count 2 = 1 ∧
    ({ id := 2, text := "b", categories := none } : MergedRow) ∈
      load_data [{ id := 1, text := "a" }, { id := 2, text := "b" }]
        [{ id := 1, categories := "related-1;child_alone-0" }] :=
  ⟨(load_data_left_join _ _ (by decide) (by decide)).1 2 (by decide),
   (load_data_left_join _ _ (by decide) (by decide)).2
     { id := 2, text := "b" } (by decide) (by decide)⟩

/-- C4: for a token whose portion after its final dash is v, the decoded
value is v's last character coerced to an integer — so for a multi-digit
value only the last digit survives. -/
theorem decodeToken_trailing (name v : List Char) (c : Char)
    (hnv : '-' ∉ v) (hvc : v.getLast? = some c) :
    (splitOnChar '-' (name ++ '-' :: v)).getLast? = some v ∧
    decodeToken (name ++ '-' :: v) =
      (match charDigit c with
       | some n => Except.ok n
       | none => Except.error "ValueError") := by
  have hne : v ≠ [] := by
    intro h
    subst h
    simp at hvc
  constructor
  · rw [splitOnChar_append, splitOnChar_of_not_mem _ _ hnv,
      List.getLast?_append_cons]
    rfl
  · have hlast : (name ++ '-' :: v).getLast? = some c := by
      rw [List.getLast?_append_cons]
      cases v with
      | nil => exact absurd rfl hne
      | cons a as => rw [List.getLast?_cons_cons]; exact hvc
    unfold decodeToken
    rw [hlast]

/-- C4 witness: the token related-12 decodes to 2, and 12 is the portion
after its final dash. -/
theorem decodeToken_trailing_witness :
    (splitOnChar '-' ("related".data ++ '-' :: "12".data)).getLast? =
      some "12".data ∧
    decodeToken ("related".data ++ '-' :: "12".data) =
      (match charDigit '2' with
       | some n => Except.ok n
       | none => Except.error "ValueError") :=
  decodeToken_trailing "related".data "12".data '2' (by decide) (by decide)

/-- C3 counterexample: for the first-row token aid-related-1, whose name
contains a dash, the code derives the column name aid (the part before the
FIRST dash), not the part before the last dash, aid-related, that the claim
requires. -/
theorem cleanColnames_first_dash :
    cleanColnames
        [{ id := 1, text := "t",
           categories := some "aid-related-1;child_alone-0" }] =
      Except.ok (["aid".data, "child_alone".data]) ∧
    specColName "aid-related-1".data = "aid-related".data ∧
    "aid".data ≠ "aid-related".data :=
  ⟨by rfl, by rfl, by decide⟩

/-- C3 (amended): the derived column name is the token's substring before
its FIRST dash; when every first-row token has exactly one dash (names
contain no dash) this coincides with the name portion before the last
dash. -/
theorem cleanColnames_name_portion (r : MergedRow) (df : List MergedRow)
    (s : String) (hcat : r.categories = some s)
    (h : ∀ t ∈ splitOnChar ';' s.data, (splitOnChar '-' t).length = 2) :
    cleanColnames (r :: df) =
      Except.ok ((splitOnChar ';' s.data).map specColName) := by
  show (match r.categories with
    | none => Except.error "AttributeError"
    | some s =>
      Except.ok ((splitOnChar ';' s.data).map
        (fun t => (splitOnChar '-' t).headD []))) = _
  rw [hcat]
  simp only [Except.ok.injEq]
  apply List.map_congr_left
  intro t ht
  rcases List.length_eq_two.mp (h t ht) with ⟨a, b, hab⟩
  simp [specColName, hab, joinDash]

/-- C3 (amended) witness: tokens whose names contain no dash. -/
theorem cleanColnames_name_portion_witness :
    cleanColnames
        [{ id := 1, text := "t",
           categories := some "related-1;child_alone-0" }] =
      Except.ok ((splitOnChar ';'
        ("related-1;child_alone-0" : String).data).map specColName) :=
  cleanColnames_name_portion _ [] _ rfl (by decide)



theorem decodeRow_ok_categories {colCount : Nat} {r : MergedRow}
    {vals : List Nat} (h : decodeRow colCount r = Except.ok vals) :
    r.categories ≠ none := by
  intro hn
  unfold decodeRow at h
  rw [hn] at h
  exact Except.noConfusion h

theorem decodeRows_mem {colCount : Nat} {df : List MergedRow}
    {decoded : List (MergedRow × List Nat)}
    (h : decodeRows colCount df = Except.ok decoded) :
    ∀ rv ∈ decoded, rv.1 ∈ df := by
  induction df generalizing decoded with
  | nil =>
    simp only [decodeRows, Except.ok.injEq] at h
    subst h
    simp
  | cons r rs ih =>
    simp only [decodeRows] at h
    cases hd : decodeRow colCount r with
    | error e => rw [hd] at h; exact Except.noConfusion h
    | ok vals =>
      rw [hd] at h
      cases ht : decodeRows colCount rs with
      | error e => rw [ht] at h; exact Except.noConfusion h
      | ok rest =>
        rw [ht] at h
        simp only [Except.ok.injEq] at h
        subst h
        intro rv hrv
        rcases List.mem_cons.mp hrv with h | h
        · subst h; exact List.mem_cons_self _ _
        · exact List.mem_cons_of_mem _ (ih ht _ h)

theorem decodeRows_ok_categories {colCount : Nat} {df : List MergedRow}
    {decoded : List (MergedRow × List Nat)}
    (h : decodeRows colCount df = Except.ok decoded) :
    ∀ r ∈ df, r.categories ≠ none := by
  induction df generalizing decoded with
  | nil => simp
  | cons r rs ih =>
    simp only [decodeRows] at h
    cases hd : decodeRow colCount r with
    | error e => rw [hd] at h; exact Except.noConfusion h
    | ok vals =>
      rw [hd] at h
      cases ht : decodeRows colCount rs with
      | error e => rw [ht] at h; exact Except.noConfusion h
      | ok rest =>
        intro r2 hr2
        rcases List.mem_cons.mp hr2 with h2 | h2
        · subst h2; exact decodeRow_ok_categories hd
        · exact ih ht r2 h2

theorem clean_data_ok_inv {df : List MergedRow} {cols : List (List Char)}
    {rows : List CleanedRow}
    (h : clean_data df = Except.ok (cols, rows)) :
    ∃ colnames decoded,
      cleanColnames df = Except.ok colnames ∧
      decodeRows colnames.length df = Except.ok decoded ∧
      "child_alone".data ∈ colnames ∧
      cols = colnames.filter keepCol ∧
      rows = dropDuplicates
        ((decoded.map (buildRow colnames)).filter relatedNotTwo) := by
  unfold clean_data at h
  split at h
  · exact Except.noConfusion h
  next colnames heq =>
    split at h
    · exact Except.noConfusion h
    next decoded heq2 =>
      split at h
      next hmem =>
        split at h
        next hcount =>
          simp only [Except.ok.injEq, Prod.mk.injEq] at h
          exact ⟨colnames, decoded, heq, heq2, hmem, h.1.symm, h.2.symm⟩
        next hcount => exact Except.noConfusion h
      next hmem => exact Except.noConfusion h

/-- C2 counterexample: the input row related-3;child_alone-0 is accepted by
clean_data and its related value 3 survives to the output, which is neither
0 nor 1 — the code only filters the value 2. -/
theorem clean_data_related_three_survives :
    clean_data
        [{ id := 1, text := "hello",
           categories := some "related-3;child_alone-0" }] =
      Except.ok (["related".data],
        [{ id := 1, text := "hello", labels := [("related".data, 3)] }]) ∧
    relatedVal { id := 1, text := "hello", labels := [("related".data, 3)] } =
      some 3 ∧
    ¬(3 = 0 ∨ 3 = 1) :=
  ⟨by rfl, by rfl, by decide⟩

/-- C2 (amended): every row of clean_data's output has a related value
different from 2 (the code drops exactly the rows whose related value
equals 2; other non-binary digits survive). -/
theorem clean_data_related_ne_two (df : List MergedRow)
    (cols : List (List Char)) (rows : List CleanedRow)
    (h : clean_data df = Except.ok (cols, rows)) :
    ∀ r ∈ rows, relatedVal r ≠ some 2 := by
  obtain ⟨colnames, decoded, hcn, hdec, hmem, hcols, hrows⟩ :=
    clean_data_ok_inv h
  intro r hr
  rw [hrows] at hr
  have hf := (List.mem_filter.mp (mem_dropDuplicates hr)).2
  simpa [relatedNotTwo] using hf

/-- C2 (amended) witness. -/
theorem clean_data_related_ne_two_witness :
    relatedVal { id := 1, text := "hello", labels := [("related".data, 0)] } ≠
      some 2 :=
  clean_data_related_ne_two
    [{ id := 1, text := "hello",
       categories := some "related-0;child_alone-0" }]
    ["related".data]
    [{ id := 1, text := "hello", labels := [("related".data, 0)] }]
    (by rfl)
    { id := 1, text := "hello", labels := [("related".data, 0)] }
    (by simp)

/-- C5: clean_data's output has no duplicate rows, and dropping duplicates
again leaves it unchanged. -/
theorem clean_data_no_duplicates (df : List MergedRow)
    (cols : List (List Char)) (rows : List CleanedRow)
    (h : clean_data df = Except.ok (cols, rows)) :
    rows.Nodup ∧ dropDuplicates rows = rows := by
  obtain ⟨colnames, decoded, hcn, hdec, hmem, hcols, hrows⟩ :=
    clean_data_ok_inv h
  subst hrows
  exact ⟨dropDuplicates_nodup _, dropDuplicates_idem _⟩

/-- C5 witness: two identical input rows collapse to one. -/
theorem clean_data_no_duplicates_witness :
    ([{ id := 1, text := "a", labels := [("related".data, 1)] }] :
      List CleanedRow).Nodup ∧
    dropDuplicates
        ([{ id := 1, text := "a", labels := [("related".data, 1)] }] :
          List CleanedRow) =
      [{ id := 1, text := "a", labels := [("related".data, 1)] }] :=
  clean_data_no_duplicates
    [{ id := 1, text := "a", categories := some "related-1;child_alone-0" },
     { id := 1, text := "a", categories := some "related-1;child_alone-0" }]
    ["related".data]
    [{ id := 1, text := "a", labels := [("related".data, 1)] }]
    (by rfl)

/-- C6: clean_data's output has no child_alone and no categories column —
neither among the kept label columns nor among any row's labels — while the
original non-label columns (id and the message content) of every surviving
row are retained from an input row. -/
theorem clean_data_columns_dropped (df : List MergedRow)
    (cols : List (List Char)) (rows : List CleanedRow)
    (h : clean_data df = Except.ok (cols, rows)) :
    "child_alone".data ∉ cols ∧ "categories".data ∉ cols ∧
    ∀ r ∈ rows,
      "child_alone".data ∉ r.labels.map Prod.fst ∧
      "categories".data ∉ r.labels.map Prod.fst ∧
      ∃ m ∈ df, r.id = m.id ∧ r.text = m.text := by
  obtain ⟨colnames, decoded, hcn, hdec, hmem, hcols, hrows⟩ :=
    clean_data_ok_inv h
  subst hcols
  refine ⟨?_, ?_, ?_⟩
  · intro hbad
    have := (List.mem_filter.mp hbad).2
    exact absurd this (by decide)
  · intro hbad
    have := (List.mem_filter.mp hbad).2
    exact absurd this (by decide)
  · intro r hr
    rw [hrows] at hr
    have hr2 := (List.mem_filter.mp (mem_dropDuplicates hr)).1
    rcases List.mem_map.mp hr2 with ⟨rv, hrv, hbuild⟩
    subst hbuild
    refine ⟨?_, ?_, rv.1, decodeRows_mem hdec rv hrv, rfl, rfl⟩
    · intro hbad
      rcases List.mem_map.mp hbad with ⟨p, hp, hfst⟩
      have hk := (List.mem_filter.mp hp).2
      rw [hfst] at hk
      exact absurd hk (by decide)
    · intro hbad
      rcases List.mem_map.mp hbad with ⟨p, hp, hfst⟩
      have hk := (List.mem_filter.mp hp).2
      rw [hfst] at hk
      exact absurd hk (by decide)

/-- C6 witness. -/
theorem clean_data_columns_dropped_witness :
    "child_alone".data ∉ (["related".data] : List (List Char)) ∧
    "categories".data ∉ (["related".data] : List (List Char)) ∧
    ∀ r ∈ ([{ id := 1, text := "a", labels := [("related".data, 1)] }] :
        List CleanedRow),
      "child_alone".data ∉ r.labels.map Prod.fst ∧
      "categories".data ∉ r.labels.map Prod.fst ∧
      ∃ m ∈
        [({ id := 1, text := "a",
            categories := some "related-1;child_alone-0" } : MergedRow)],
        r.id = m.id ∧ r.text = m.text :=
  clean_data_columns_dropped
    [{ id := 1, text := "a", categories := some "related-1;child_alone-0" }]
    ["related".data]
    [{ id := 1, text := "a", labels := [("related".data, 1)] }]
    (by rfl)

/-- C9: a merged record set containing a row whose categories field is
missing (the left join found no category record) makes clean_data raise
rather than produce an output. -/
theorem clean_data_requires_categories (df : List MergedRow) (r : MergedRow)
    (hr : r ∈ df) (hn : r.categories = none) :
    ∃ e, clean_data df = Except.error e := by
  cases h : clean_data df with
  | error e => exact ⟨e, rfl⟩
  | ok out =>
    obtain ⟨cols, rows⟩ := out
    obtain ⟨colnames, decoded, hcn, hdec, _, _, _⟩ := clean_data_ok_inv h
    exact absurd hn (decodeRows_ok_categories hdec r hr)

/-- C9 witness. -/
theorem clean_data_requires_categories_witness :
    ∃ e, clean_data
        [{ id := 1, text := "a", categories := some "related-1;child_alone-0" },
         { id := 2, text := "b", categories := none }] =
      Except.error e :=
  clean_data_requires_categories _
    { id := 2, text := "b", categories := none } (by decide) rfl



theorem save_data_ok_eq (labelCols : List (List Char))
    (rows : List CleanedRow) (database_filename : String)
    (db db' : List (String × Table))
    (h : save_data labelCols rows database_filename db = Except.ok db') :
    db' = db ++ [(database_filename,
      { cols := ["id".data, "text".data] ++ labelCols, rows := rows })] := by
  unfold save_data to_sql at h
  split at h
  · exact Except.noConfusion h
  · simp only [Except.ok.injEq] at h
    simp [← h]

/-- C8: for every cleaned record set and destination path, a successful
save_data appends exactly one table to the store, named by the destination
path string itself, whose columns are exactly the frame's own columns (no
index column is prepended, unlike a to_sql call with index=True). -/
theorem save_data_one_table (labelCols : List (List Char))
    (rows : List CleanedRow) (database_filename : String)
    (db db' : List (String × Table))
    (h : save_data labelCols rows database_filename db = Except.ok db') :
    db' = db ++ [(database_filename,
      { cols := ["id".data, "text".data] ++ labelCols, rows := rows })] ∧
    ("index".data ∉ labelCols →
      ∀ t : Table, (database_filename, t) ∈ db' → (database_filename, t) ∉ db →
        "index".data ∉ t.cols) := by
  have heq := save_data_ok_eq labelCols rows database_filename db db' h
  refine ⟨heq, ?_⟩
  intro hidx t ht hnt
  rw [heq] at ht
  rcases List.mem_append.mp ht with h2 | h2
  · exact absurd h2 hnt
  · have h3 := List.mem_singleton.mp h2
    have h4 : t = _ := congrArg Prod.snd h3
    subst h4
    intro hbad
    rcases List.mem_append.mp hbad with h5 | h5
    · rcases List.mem_cons.mp h5 with h6 | h6
      · exact absurd h6 (by decide)
      · rcases List.mem_singleton.mp h6 with h7
        exact absurd h7 (by decide)
    · exact hidx h5

/-- C8 witness. -/
theorem save_data_one_table_witness :
    ([(("out.db" : String),
      ({ cols := ["id".data, "text".data] ++ [("related".data : List Char)],
         rows := [] } : Table))] : List (String × Table)) =
      [] ++ [(("out.db" : String),
        { cols := ["id".data, "text".data] ++ [("related".data : List Char)],
          rows := [] })] ∧
    ("index".data ∉ [("related".data : List Char)] →
      ∀ t : Table,
        (("out.db" : String), t) ∈
          ([(("out.db" : String),
            ({ cols := ["id".data, "text".data] ++
                [("related".data : List Char)],
               rows := [] } : Table))] : List (String × Table)) →
        (("out.db" : String), t) ∉ ([] : List (String × Table)) →
        "index".data ∉ t.cols) :=
  save_data_one_table [("related".data : List Char)] [] "out.db" [] _ (by rfl)

/-- C10: with the default if_exists of to_sql, save_data raises when the
store already holds a table named by the destination path — in particular a
second pipeline run with the same destination path fails at the save
stage — and an error produces no new store state. -/
theorem save_data_fails_if_exists (c1 : List (List Char))
    (r1 : List CleanedRow) (c2 : List (List Char)) (r2 : List CleanedRow)
    (name : String) (db : List (String × Table)) :
    (name ∈ db.map Prod.fst →
      save_data c1 r1 name db = Except.error "ValueError") ∧
    (∀ db', save_data c1 r1 name db = Except.ok db' →
      save_data c2 r2 name db' = Except.error "ValueError") := by
  constructor
  · intro hmem
    unfold save_data to_sql
    rw [if_pos hmem]
  · intro db' h
    have heq := save_data_ok_eq c1 r1 name db db' h
    unfold save_data to_sql
    rw [if_pos ?_]
    rw [heq, List.map_append]
    exact List.mem_append_right _ (by simp)

/-- C10 witness: the second write to the same destination fails. -/
theorem save_data_fails_if_exists_witness :
    save_data [("related".data : List Char)] [] "out.db"
        ([] ++ [(("out.db" : String),
          ({ cols := ["id".data, "text".data] ++
              [("related".data : List Char)],
             rows := [] } : Table))]) =
      Except.error "ValueError" :=
  (save_data_fails_if_exists [("related".data : List Char)] []
      [("related".data : List Char)] [] "out.db" []).2 _ (by rfl)

/-- C7: the entry point prints the usage message and performs no load,
clean or save when the argument count is not exactly 3 (sys.argv has
program name plus arguments); with exactly 3 arguments it runs
load, clean, save in that order, interleaved with the progress prints. -/
theorem mainActions_spec (argv : List String) :
    (argv.length ≠ 4 →
      mainActions argv = [Action.print usageMessage] ∧
      (∀ m c, Action.load m c ∉ mainActions argv) ∧
      Action.clean ∉ mainActions argv ∧
      (∀ d, Action.save d ∉ mainActions argv)) ∧
    (∀ p m c d, argv = [p, m, c, d] →
      mainActions argv =
        [Action.print ("Loading data...\n    MESSAGES: " ++ m ++
           "\n    CATEGORIES: " ++ c),
         Action.load m c,
         Action.print "Cleaning data...",
         Action.clean,
         Action.print ("Saving data...\n    DATABASE: " ++ d),
         Action.save d,
         Action.print "Cleaned data saved to database!"]) := by
  constructor
  · intro h
    have husage : mainActions argv = [Action.print usageMessage] := by
      match argv with
      | [] => rfl
      | [_] => rfl
      | [_, _] => rfl
      | [_, _, _] => rfl
      | [_, _, _, _] => exact absurd rfl h
      | _ :: _ :: _ :: _ :: _ :: _ => rfl
    refine ⟨husage, ?_, ?_, ?_⟩ <;> simp [husage]
  · intro p m c d hargv
    subst hargv
    rfl

/-- C7 witness: two arguments give the usage message; three run the
pipeline. -/
theorem mainActions_spec_witness :
    mainActions ["program", "messages.csv"] = [Action.print usageMessage] ∧
    mainActions ["program", "m.csv", "c.csv", "d.db"] =
      [Action.print ("Loading data...\n    MESSAGES: " ++ "m.csv" ++
         "\n    CATEGORIES: " ++ "c.csv"),
       Action.load "m.csv" "c.csv",
       Action.print "Cleaning data...",
       Action.clean,
       Action.print ("Saving data...\n    DATABASE: " ++ "d.db"),
       Action.save "d.db",
       Action.print "Cleaned data saved to database!"] :=
  ⟨((mainActions_spec ["program", "messages.csv"]).1 (by decide)).1,
   (mainActions_spec ["program", "m.csv", "c.csv", "d.db"]).2
     "program" "m.csv" "c.csv" "d.db" rfl⟩


end ETL
